import Mathlib

/-!
Verification of the sequel persistence layer (go.step.sm/sequel).

The Go source is shallowly embedded: pure functions become Lean functions,
the database/clock side effects become explicit parameters (the backend's
answers to each call) and explicit state threading.  Machine integers
(`int64`) are modelled as `Int` (no arithmetic that can overflow occurs in
the modelled code), `time.Time` as `Int` (an opaque instant, with the zero
value `0` playing the role of Go's zero time), `[]byte` as `List Nat`, and
Go's `float64` as `Rat` (an idealised numeric domain; IEEE special values
are outside the scope of this embedding).  A `nil` Go slice is modelled as
`none` and a present slice as `some`, so the nil/empty distinction of
`[]T` survives the translation.
-/

namespace Sequel

/-- Errors that the modelled code can produce.  `errNoRows` stands for
`sql.ErrNoRows`; `unexpectedRows` is the `fmt.Errorf("unexpected number of
rows: got %d, want %d", got, n)` value of `RowsAffected`, carrying both
numbers; `unsupportedType` is the `fmt.Errorf("unsupported type %T", v)`
value of `ArrayScan`.  The remaining constructors stand for arbitrary
backend errors surfaced by bind, exec, scan, begin or commit calls. -/
inductive Err where
  | errNoRows
  | unexpectedRows (got want : Int)
  | bindErr (msg : String)
  | execErr (msg : String)
  | scanErr (msg : String)
  | beginErr (msg : String)
  | commitErr (msg : String)
  | unsupportedType (desc : String)
  | resultErr (msg : String)
deriving DecidableEq, Repr

deriving instance DecidableEq for Except

/-- Result of a statement execution: `sql.Result` exposing `RowsAffected()
(int64, error)`. -/
structure SqlResult where
  rowsAffected : Except Err Int
deriving DecidableEq, Repr

/-- RowsAffected models `func RowsAffected(res sql.Result, n int64) error`
(sequel.go).  `none` is the nil error.  The source checks `got == n`
first, then `got == 0`, then builds the mismatch error. -/
def RowsAffected (res : SqlResult) (n : Int) : Option Err :=
  match res.rowsAffected with
  | .error e => some e
  | .ok got =>
    if got = n then none
    else if got = 0 then some Err.errNoRows
    else some (Err.unexpectedRows got n)

/-- isZeroTime models `time.Time.IsZero` on our `Int` model of instants. -/
def isZeroTime (t : Int) : Bool := t == 0

namespace sql

/-- NullTime models `database/sql.NullTime`. -/
structure NullTime where
  Time : Int
  Valid : Bool
deriving DecidableEq, Repr

/-- NullBool models `database/sql.NullBool` (Valid is declared first so
that the Bool-named field does not shadow the Bool type). -/
structure NullBool where
  Valid : Bool
  Bool : Bool
deriving DecidableEq, Repr

/-- NullByte models `database/sql.NullByte` (`byte` is modelled as `Nat`,
zero value `0`). -/
structure NullByte where
  Byte : Nat
  Valid : Bool
deriving DecidableEq, Repr

/-- NullFloat64 models `database/sql.NullFloat64` (`float64` modelled as
`Rat`). -/
structure NullFloat64 where
  Float64 : Rat
  Valid : Bool
deriving DecidableEq, Repr

/-- NullInt16 models `database/sql.NullInt16`. -/
structure NullInt16 where
  Int16 : Int
  Valid : Bool
deriving DecidableEq, Repr

/-- NullInt32 models `database/sql.NullInt32`. -/
structure NullInt32 where
  Int32 : Int
  Valid : Bool
deriving DecidableEq, Repr

/-- NullInt64 models `database/sql.NullInt64`. -/
structure NullInt64 where
  Int64 : Int
  Valid : Bool
deriving DecidableEq, Repr

/-- NullString models `database/sql.NullString`. -/
structure NullString where
  Str : String
  Valid : Bool
deriving DecidableEq, Repr

end sql

/-- NullBool models the helper in helpers.go: `sql.NullBool{Bool: b, Valid: b}`. -/
def NullBool (b : Bool) : sql.NullBool := { Bool := b, Valid := b }

/-- NullByte models the helper in helpers.go: `Valid: b != 0`. -/
def NullByte (b : Nat) : sql.NullByte := { Byte := b, Valid := b != 0 }

/-- NullFloat64 models the helper in helpers.go: `Valid: f != 0`. -/
def NullFloat64 (f : Rat) : sql.NullFloat64 := { Float64 := f, Valid := f != 0 }

/-- NullInt16 models the helper in helpers.go: `Valid: i != 0`. -/
def NullInt16 (i : Int) : sql.NullInt16 := { Int16 := i, Valid := i != 0 }

/-- NullInt32 models the helper in helpers.go: `Valid: i != 0`. -/
def NullInt32 (i : Int) : sql.NullInt32 := { Int32 := i, Valid := i != 0 }

/-- NullInt64 models the helper in helpers.go: `Valid: i != 0`. -/
def NullInt64 (i : Int) : sql.NullInt64 := { Int64 := i, Valid := i != 0 }

/-- NullString models the helper in helpers.go: `Valid: s != ""`. -/
def NullString (s : String) : sql.NullString := { Str := s, Valid := s != "" }

/-- NullTime models the helper in helpers.go: `Valid: !t.IsZero()`. -/
def NullTime (t : Int) : sql.NullTime := { Time := t, Valid := !(isZeroTime t) }

/-- Base models the embedded `Base` struct of model.go with its four
columns. -/
structure Base where
  ID : String
  CreatedAt : Int
  UpdatedAt : Int
  DeletedAt : sql.NullTime
deriving DecidableEq, Repr

/-- GetID models `func (m Base) GetID() string`. -/
def Base.GetID (m : Base) : String := m.ID

/-- SetID models `func (m *Base) SetID(id string)`; the mutation of the
receiver becomes returning the updated record. -/
def Base.SetID (m : Base) (id : String) : Base := { m with ID := id }

/-- SetCreatedAt models `func (m *Base) SetCreatedAt(t time.Time)`. -/
def Base.SetCreatedAt (m : Base) (t : Int) : Base := { m with CreatedAt := t }

/-- SetUpdatedAt models `func (m *Base) SetUpdatedAt(t time.Time)`. -/
def Base.SetUpdatedAt (m : Base) (t : Int) : Base := { m with UpdatedAt := t }

/-- SetDeletedAt models `func (m *Base) SetDeletedAt(t time.Time)`, which
stores `sql.NullTime{Valid: !t.IsZero(), Time: t}`. -/
def Base.SetDeletedAt (m : Base) (t : Int) : Base :=
  { m with DeletedAt := { Time := t, Valid := !(isZeroTime t) } }

/-- ClockState models a `clock.Clock`: a stream of instants together with
the number of `Now()` calls performed so far, so that the embedding can
state how many times an operation reads the clock. -/
structure ClockState where
  stream : Nat → Int
  reads : Nat

/-- now models `Clock.Now()`: it returns the next instant of the stream
and advances the read counter. -/
def ClockState.now (c : ClockState) : Int × ClockState :=
  (c.stream c.reads, { c with reads := c.reads + 1 })

/-- Entity models a value implementing the `Model` interface, with the
`Base` fields (id and the three timestamps), the `ModelWithExecInsert`
capability as a flag, and the opaque query template strings returned by
`Select()`, `Insert()`, `Update()`, `Delete()` and `HardDelete()`.  The
timestamp setters follow `Base`, the repository's canonical
implementation. -/
structure Entity where
  id : String
  createdAt : Int
  updatedAt : Int
  deletedAt : sql.NullTime
  execInsert : Bool
  selectQ : String
  insertQ : String
  updateQ : String
  deleteQ : String
  hardDeleteQ : String
deriving DecidableEq, Repr

/-- GetID models `Model.GetID()` on an `Entity`. -/
def Entity.GetID (e : Entity) : String := e.id

/-- SetID models `Model.SetID(id)` on an `Entity`. -/
def Entity.SetID (e : Entity) (id : String) : Entity := { e with id := id }

/-- SetDeletedAt models `Model.SetDeletedAt(t)` on an `Entity`, following
`Base.SetDeletedAt`. -/
def Entity.SetDeletedAt (e : Entity) (t : Int) : Entity :=
  { e with deletedAt := { Time := t, Valid := !(isZeroTime t) } }

/-- stampTimes models the pair of calls `arg.SetCreatedAt(t0);
arg.SetUpdatedAt(t0)` that open every insert path. -/
def stampTimes (t0 : Int) (e : Entity) : Entity :=
  { e with createdAt := t0, updatedAt := t0 }

/-- InsertOutcome carries the backend's answers to the calls a single
insert can make: the `BindNamed` outcome, the `Exec` outcome (used on the
`ModelWithExecInsert` path) and the `Row.Scan` outcome (used on the
`RETURNING id` path, yielding the generated id). -/
structure InsertOutcome where
  bind : Except Err Unit
  exec : Except Err SqlResult
  scan : Except Err String
deriving DecidableEq, Repr

/-- insertStep models the shared body of `DB.Insert`, `Tx.Insert` and the
per-entity body of the `InsertBatch` loop: stamp both timestamps with t0,
bind the named parameters of the insert template, then either execute and
require exactly one affected row (ModelWithExecInsert) or scan the
returned generated id and set it.  It returns the entity's final in-memory
state and the error, if any. -/
def insertStep (t0 : Int) (e : Entity) (o : InsertOutcome) : Entity × Option Err :=
  let e1 := stampTimes t0 e
  match o.bind with
  | .error err => (e1, some err)
  | .ok _ =>
    if e1.execInsert then
      match o.exec with
      | .error err => (e1, some err)
      | .ok r =>
        match RowsAffected r 1 with
        | some err => (e1, some err)
        | none => (e1, none)
    else
      match o.scan with
      | .error err => (e1, some err)
      | .ok newId => (e1.SetID newId, none)

/-- Insert models `DB.Insert` (and the identical `Tx.Insert`): one clock
read supplies t0, then the insert body runs; the resulting entity state,
the returned error and the advanced clock are the observable outcome. -/
def Insert (clk : ClockState) (e : Entity) (o : InsertOutcome) :
    (Entity × Except Err Unit) × ClockState :=
  let t0c := clk.now
  let step := insertStep t0c.1 e o
  match step.2 with
  | some err => ((step.1, Except.error err), t0c.2)
  | none => ((step.1, Except.ok ()), t0c.2)

/-- insertBatchLoop models the `for _, a := range args` loop of
`InsertBatch`: entities are processed in order; the first error stops the
loop, leaving the remaining entities untouched.  It returns the final
in-memory state of every entity of the batch together with the first
error, if any. -/
def insertBatchLoop (t0 : Int) :
    List (Entity × InsertOutcome) → List Entity × Option Err
  | [] => ([], none)
  | p :: rest =>
    let step := insertStep t0 p.1 p.2
    match step.2 with
    | some err => (step.1 :: rest.map Prod.fst, some err)
    | none =>
      let r := insertBatchLoop t0 rest
      (step.1 :: r.1, r.2)

/-- BatchResult is the observable outcome of an `InsertBatch` call: the
final in-memory entity states, the returned error, whether the
transaction was committed, and whether the deferred `tx.Rollback()`
actually aborted it (after a successful commit the deferred rollback is a
no-op). -/
structure BatchResult where
  entities : List Entity
  result : Except Err Unit
  committed : Bool
  rolledBack : Bool
deriving Repr

/-- InsertBatch models `DB.InsertBatch`: one clock read before the
transaction supplies t0 for the whole batch; `BeginTxx` may fail; the
loop runs with a deferred rollback; only a loop without errors reaches
`tx.Commit()`. -/
def InsertBatch (clk : ClockState) (beginRes commitRes : Except Err Unit)
    (batch : List (Entity × InsertOutcome)) : BatchResult × ClockState :=
  let t0c := clk.now
  match beginRes with
  | .error e =>
    ({ entities := batch.map Prod.fst, result := .error e,
       committed := false, rolledBack := false }, t0c.2)
  | .ok _ =>
    let r := insertBatchLoop t0c.1 batch
    match r.2 with
    | some err =>
      ({ entities := r.1, result := .error err,
         committed := false, rolledBack := true }, t0c.2)
    | none =>
      match commitRes with
      | .error e =>
        ({ entities := r.1, result := .error e,
           committed := false, rolledBack := true }, t0c.2)
      | .ok _ =>
        ({ entities := r.1, result := .ok (),
           committed := true, rolledBack := false }, t0c.2)

/-- DeleteCall is the observable outcome of a `Delete` call: the entity's
final in-memory state, the returned error, and the two arguments passed
to the soft-delete statement (the clock instant and the entity id). -/
structure DeleteCall where
  entity : Entity
  result : Except Err Unit
  passedTime : Int
  passedID : String
deriving DecidableEq, Repr

/-- Delete models `DB.Delete` (and the identical `Tx.Delete`): read the
clock once, execute the delete template with that instant and the
entity's id, require exactly one affected row via `RowsAffected(r, 1)`,
and only on success store the instant as the in-memory deleted
timestamp. -/
def Delete (clk : ClockState) (e : Entity) (execRes : Except Err SqlResult) :
    DeleteCall × ClockState :=
  let t0c := clk.now
  match execRes with
  | .error err =>
    ({ entity := e, result := .error err,
       passedTime := t0c.1, passedID := e.GetID }, t0c.2)
  | .ok r =>
    match RowsAffected r 1 with
    | some err =>
      ({ entity := e, result := .error err,
         passedTime := t0c.1, passedID := e.GetID }, t0c.2)
    | none =>
      ({ entity := e.SetDeletedAt t0c.1, result := .ok (),
         passedTime := t0c.1, passedID := e.GetID }, t0c.2)

/-- Tx models the transaction wrapper: the rebind flag copied from the DB
and the registered post-commit callbacks, generic in the callback
representation. -/
structure Tx (κ : Type) where
  doRebindModel : Bool
  oncommit : List κ

/-- Commit models `Tx.Commit`: the underlying commit result is passed in;
on failure its error is returned and nothing is invoked, on success the
registered callbacks are invoked in order (returned as the invocation
trace). -/
def Tx.Commit {κ : Type} (t : Tx κ) (underlying : Except Err Unit) :
    Except Err Unit × List κ :=
  match underlying with
  | .error e => (.error e, [])
  | .ok _ => (.ok (), t.oncommit)

/-- PostCommit models `Tx.PostCommit`: it appends the callback to the
registration list. -/
def Tx.PostCommit {κ : Type} (t : Tx κ) (fn : κ) : Tx κ :=
  { t with oncommit := t.oncommit ++ [fn] }

/-- Rollback models `Tx.Rollback`: it returns the underlying rollback
result and invokes no callback. -/
def Tx.Rollback {κ : Type} (_t : Tx κ) (underlying : Except Err Unit) :
    Except Err Unit × List κ :=
  (underlying, [])

/-- registerAll registers a list of callbacks one by one through
`PostCommit`, in the given order. -/
def registerAll {κ : Type} (t : Tx κ) (fns : List κ) : Tx κ :=
  List.foldl Tx.PostCommit t fns

/-- Options models the options struct built by `newOptions` and mutated
by the `With*` option functions. -/
structure Options where
  RebindModel : Bool
  MaxOpenConnections : Int
deriving DecidableEq, Repr

/-- newOptions models the defaults of `newOptions(driverName)`. -/
def newOptions : Options :=
  { RebindModel := false, MaxOpenConnections := 100 }

/-- WithRebindModel models the `WithRebindModel()` option: it sets the
RebindModel flag. -/
def WithRebindModel (o : Options) : Options := { o with RebindModel := true }

/-- DBConfig carries the engine state relevant to query preparation: the
rebind-model flag and the two external string transforms, the driver's
`Rebind` translation and the `BindNamed` named-parameter binding (only
the query component matters here). -/
structure DBConfig where
  doRebindModel : Bool
  rebind : String → String
  bindNamed : String → String

/-- rebindModel models `DB.rebindModel` (and the identical
`Tx.rebindModel`): apply the driver rebind only when the flag is set. -/
def rebindModel (d : DBConfig) (q : String) : String :=
  if d.doRebindModel then d.rebind q else q

/-- selectExecQuery is the query string `DB.Select` executes:
`d.rebindModel(dest.Select())`. -/
def selectExecQuery (d : DBConfig) (e : Entity) : String :=
  rebindModel d e.selectQ

/-- deleteExecQuery is the query string `DB.Delete` executes:
`d.rebindModel(arg.Delete())`. -/
def deleteExecQuery (d : DBConfig) (e : Entity) : String :=
  rebindModel d e.deleteQ

/-- hardDeleteExecQuery is the query string `DB.HardDelete` executes:
`d.rebindModel(arg.HardDelete())`. -/
def hardDeleteExecQuery (d : DBConfig) (e : Entity) : String :=
  rebindModel d e.hardDeleteQ

/-- updateExecQuery is the query string `DB.Update` executes: the result
of `d.db.BindNamed(arg.Update(), arg)`, with no rebindModel call on the
path. -/
def updateExecQuery (d : DBConfig) (e : Entity) : String :=
  d.bindNamed e.updateQ

/-- insertExecQuery is the query string `DB.Insert` executes: the result
of `d.db.BindNamed(arg.Insert(), arg)`, with no rebindModel call on the
path. -/
def insertExecQuery (d : DBConfig) (e : Entity) : String :=
  d.bindNamed e.insertQ

/-- ScanSrc models the runtime shapes the `src any` argument of
`ArrayScan` is matched against: SQL NULL, a byte slice, a string, or any
other value (carrying its dynamic type description). -/
inductive ScanSrc where
  | null
  | bytes (b : List Nat)
  | str (s : String)
  | other (desc : String)
deriving DecidableEq, Repr

/-- strBytes models the Go conversion `[]byte(v)` of a string. -/
def strBytes (s : String) : List Nat :=
  s.toUTF8.toList.map (fun b => b.toNat)

/-- scanArrayBytes models the byte-slice branch of `ArrayScan`: run the
type map's element decoder for the oid over the bytes
(`defaultMap.Scan(oid, pgtype.TextFormatCode, v, &pgArray)`) and, on
success, store the decoded elements in the destination. -/
def scanArrayBytes {T : Type} (scanMap : Nat → List Nat → Except Err (List T))
    (oid : Nat) (b : List Nat) : Except Err (Option (List T)) :=
  match scanMap oid b with
  | .error e => .error e
  | .ok elems => .ok (some elems)

/-- ArrayScan models `func ArrayScan[T any](oid uint32, src any, dest
*[]T) error`: a nil source sets the destination to the nil slice (`none`,
as opposed to `some []`); a byte slice is decoded with the element
decoder for the oid; a string recurses as its bytes; any other value
fails with the unsupported-type error.  The element decoder itself (the
pgtype map) is external and passed as a parameter. -/
def ArrayScan {T : Type} (scanMap : Nat → List Nat → Except Err (List T))
    (oid : Nat) (src : ScanSrc) : Except Err (Option (List T)) :=
  match src with
  | .null => .ok none
  | .bytes b => scanArrayBytes scanMap oid b
  | .str s => scanArrayBytes scanMap oid (strBytes s)
  | .other d => .error (Err.unsupportedType d)

/-- clkFive is a frozen clock whose every instant is 5. -/
def clkFive : ClockState := { stream := fun _ => 5, reads := 0 }

/-- clkSeven is a frozen clock whose every instant is 7. -/
def clkSeven : ClockState := { stream := fun _ => 7, reads := 0 }

/-- clkNine is a frozen clock whose every instant is 9. -/
def clkNine : ClockState := { stream := fun _ => 9, reads := 0 }

/-- entityZero is a concrete live entity with zeroed fields and template
strings. -/
def entityZero : Entity :=
  { id := "", createdAt := 0, updatedAt := 0,
    deletedAt := { Time := 0, Valid := false }, execInsert := false,
    selectQ := "s", insertQ := "i", updateQ := "u", deleteQ := "d",
    hardDeleteQ := "h" }

/-- entityB is entityZero under a caller-assigned id. -/
def entityB : Entity := { entityZero with id := "b0" }

/-- okScanOutcome is a backend answer where bind, exec and scan all
succeed, the scan returning a generated id. -/
def okScanOutcome : InsertOutcome :=
  { bind := Except.ok (), exec := Except.ok { rowsAffected := Except.ok 1 },
    scan := Except.ok "gen-1" }

/-- bindFailOutcome is a backend answer where the named bind fails. -/
def bindFailOutcome : InsertOutcome :=
  { bind := Except.error (Err.bindErr "boom"),
    exec := Except.ok { rowsAffected := Except.ok 1 },
    scan := Except.ok "gen-2" }

/-- cfgRebindOn is a DB configuration with the rebind-model flag set, a
rebind translation that visibly changes the query, and an identity named
binding. -/
def cfgRebindOn : DBConfig :=
  { doRebindModel := true, rebind := fun q => q ++ "$",
    bindNamed := fun q => q }

/-- C2 counterexample: with actual affected count 0 and expected count 0,
`RowsAffected` returns success (`got == n` is checked first), not the
claimed not-found condition. -/
theorem rowsAffected_zero_zero_counterexample :
    RowsAffected { rowsAffected := Except.ok 0 } 0 = none ∧
    (none : Option Err) ≠ some Err.errNoRows := by
  constructor
  · rfl
  · intro h
    cases h

/-- C2 (amended): `RowsAffected` succeeds when the actual count equals the
expected count (including when both are zero); when the actual count is
zero and the expected count is non-zero it reports the distinct not-found
condition; any other actual count yields the count-mismatch error carrying
both the actual and the expected numbers; an error from reading the count
is returned as is. -/
theorem rowsAffected_classification (got n : Int) :
    (got = n → RowsAffected { rowsAffected := Except.ok got } n = none) ∧
    (got = 0 → n ≠ 0 →
      RowsAffected { rowsAffected := Except.ok got } n = some Err.errNoRows) ∧
    (got ≠ 0 → got ≠ n →
      RowsAffected { rowsAffected := Except.ok got } n =
        some (Err.unexpectedRows got n)) ∧
    (∀ e, RowsAffected { rowsAffected := Except.error e } n = some e) := by
  refine ⟨?_, ?_, ?_, ?_⟩
  · intro h
    simp [RowsAffected, h]
  · intro h0 hn
    subst h0
    simp [RowsAffected, Ne.symm hn]
  · intro h0 hne
    simp [RowsAffected, hne, h0]
  · intro e
    rfl

/-- Witness for rowsAffected_classification at actual count 5, expected
count 1. -/
theorem rowsAffected_classification_witness :
    RowsAffected { rowsAffected := Except.ok 5 } 1 =
      some (Err.unexpectedRows 5 1) :=
  (rowsAffected_classification 5 1).2.2.1 (by decide) (by decide)

/-- C9: `Base.SetDeletedAt` stores a deleted timestamp whose Valid flag is
set exactly when the given time is non-zero, carrying the given time; so
the zero time clears the soft-delete marker and any non-zero time sets
it. -/
theorem setDeletedAt_marker_iff_nonzero (m : Base) (t : Int) :
    (((m.SetDeletedAt t).DeletedAt.Valid = true) ↔ t ≠ 0) ∧
    (m.SetDeletedAt t).DeletedAt.Time = t := by
  constructor
  · simp [Base.SetDeletedAt, isZeroTime]
  · rfl

/-- C10: each Null* helper carries its argument and marks it Valid exactly
when the argument is not the zero value of its type; hence no helper can
produce a non-null (Valid) wrapper around a zero value. -/
theorem null_helpers_valid_iff_nonzero :
    (∀ b, (NullBool b).Bool = b ∧ ((NullBool b).Valid = true ↔ b ≠ false)) ∧
    (∀ b : Nat, (NullByte b).Byte = b ∧ ((NullByte b).Valid = true ↔ b ≠ 0)) ∧
    (∀ f : Rat,
      (NullFloat64 f).Float64 = f ∧ ((NullFloat64 f).Valid = true ↔ f ≠ 0)) ∧
    (∀ i : Int, (NullInt16 i).Int16 = i ∧ ((NullInt16 i).Valid = true ↔ i ≠ 0)) ∧
    (∀ i : Int, (NullInt32 i).Int32 = i ∧ ((NullInt32 i).Valid = true ↔ i ≠ 0)) ∧
    (∀ i : Int, (NullInt64 i).Int64 = i ∧ ((NullInt64 i).Valid = true ↔ i ≠ 0)) ∧
    (∀ s : String, (NullString s).Str = s ∧
      ((NullString s).Valid = true ↔ s ≠ "")) ∧
    (∀ t : Int, (NullTime t).Time = t ∧ ((NullTime t).Valid = true ↔ t ≠ 0)) := by
  refine ⟨?_, ?_, ?_, ?_, ?_, ?_, ?_, ?_⟩
  · intro b
    cases b <;> simp [NullBool]
  · intro b
    exact ⟨rfl, by simp [NullByte]⟩
  · intro f
    exact ⟨rfl, by simp [NullFloat64]⟩
  · intro i
    exact ⟨rfl, by simp [NullInt16]⟩
  · intro i
    exact ⟨rfl, by simp [NullInt32]⟩
  · intro i
    exact ⟨rfl, by simp [NullInt64]⟩
  · intro s
    exact ⟨rfl, by simp [NullString]⟩
  · intro t
    exact ⟨rfl, by simp [NullTime, isZeroTime]⟩

/-- insertStep stamps both timestamps with t0 in every branch, success or
failure, and never touches any other field than id. -/
theorem insertStep_stamps (t0 : Int) (e : Entity) (o : InsertOutcome) :
    ((insertStep t0 e o).1).createdAt = t0 ∧
    ((insertStep t0 e o).1).updatedAt = t0 := by
  cases hb : o.bind with
  | error err => simp [insertStep, hb, stampTimes]
  | ok u =>
    cases hx : e.execInsert with
    | true =>
      cases hc : o.exec with
      | error err => simp [insertStep, hb, hx, hc, stampTimes]
      | ok r =>
        cases hr : RowsAffected r 1 <;>
          simp [insertStep, hb, hx, hc, hr, stampTimes]
    | false =>
      cases hs : o.scan with
      | error err => simp [insertStep, hb, hx, hs, stampTimes]
      | ok newId => simp [insertStep, hb, hx, hs, stampTimes, Entity.SetID]

/-- RowsAffected succeeds exactly when the affected-row count was read
successfully and equals the expectation. -/
theorem rowsAffected_none_iff (r : SqlResult) (n : Int) :
    RowsAffected r n = none ↔ r.rowsAffected = Except.ok n := by
  unfold RowsAffected
  cases h : r.rowsAffected with
  | error e => simp
  | ok got =>
    by_cases hg : got = n
    · simp [hg]
    · by_cases h0 : got = 0 <;> simp [hg, h0]

/-- insertBatchLoop on an all-successful batch returns every entity in
its fully mutated state and no error. -/
theorem insertBatchLoop_all_ok (t0 : Int) (l : List (Entity × InsertOutcome))
    (h : ∀ p ∈ l, (insertStep t0 p.1 p.2).2 = none) :
    insertBatchLoop t0 l =
      (l.map (fun p => (insertStep t0 p.1 p.2).1), none) := by
  induction l with
  | nil => rfl
  | cons p rest ih =>
    have hp := h p (List.mem_cons_self p rest)
    have hr := ih (fun q hq => h q (List.mem_cons_of_mem p hq))
    simp [insertBatchLoop, hp, hr]

/-- insertBatchLoop stops at the first failing entity: the prefix keeps
its full mutations, the failing entity keeps its partial mutation, the
suffix is untouched, and the first error is returned. -/
theorem insertBatchLoop_first_error (t0 : Int)
    (pre : List (Entity × InsertOutcome)) (e : Entity) (o : InsertOutcome)
    (post : List (Entity × InsertOutcome)) (err : Err)
    (hpre : ∀ p ∈ pre, (insertStep t0 p.1 p.2).2 = none)
    (hfail : (insertStep t0 e o).2 = some err) :
    insertBatchLoop t0 (pre ++ (e, o) :: post) =
      (pre.map (fun p => (insertStep t0 p.1 p.2).1) ++
        (insertStep t0 e o).1 :: post.map Prod.fst, some err) := by
  induction pre with
  | nil => simp [insertBatchLoop, hfail]
  | cons p rest ih =>
    have hp := hpre p (List.mem_cons_self p rest)
    have hr := ih (fun q hq => hpre q (List.mem_cons_of_mem p hq))
    simp [insertBatchLoop, hp, hr]

/-- C1: when some entity of the batch fails (bind, scan, exec or
row-count error) after a prefix of successful inserts, InsertBatch does
not commit, the deferred rollback aborts the transaction, the first
encountered error is returned, and the in-memory states show the prefix
entities fully mutated (ids and timestamps), the failing entity with its
partial mutation, and the remaining entities untouched. -/
theorem insertBatch_first_error_rolls_back (clk : ClockState)
    (commitRes : Except Err Unit) (pre : List (Entity × InsertOutcome))
    (e : Entity) (o : InsertOutcome) (post : List (Entity × InsertOutcome))
    (err : Err)
    (hpre : ∀ p ∈ pre, (insertStep (clk.stream clk.reads) p.1 p.2).2 = none)
    (hfail : (insertStep (clk.stream clk.reads) e o).2 = some err) :
    (InsertBatch clk (Except.ok ()) commitRes (pre ++ (e, o) :: post)).1 =
      { entities := pre.map
            (fun p => (insertStep (clk.stream clk.reads) p.1 p.2).1) ++
          (insertStep (clk.stream clk.reads) e o).1 :: post.map Prod.fst,
        result := Except.error err, committed := false,
        rolledBack := true } := by
  have hloop := insertBatchLoop_first_error (clk.stream clk.reads) pre e o
    post err hpre hfail
  simp [InsertBatch, ClockState.now, hloop]

/-- Witness for insertBatch_first_error_rolls_back: a two-entity batch
whose second bind fails under a frozen clock at 5. -/
theorem insertBatch_first_error_rolls_back_witness :
    (InsertBatch clkFive (Except.ok ()) (Except.ok ())
        [(entityZero, okScanOutcome), (entityB, bindFailOutcome)]).1 =
      { entities := [(insertStep 5 entityZero okScanOutcome).1,
          (insertStep 5 entityB bindFailOutcome).1],
        result := Except.error (Err.bindErr "boom"),
        committed := false, rolledBack := true } := by
  have h := insertBatch_first_error_rolls_back clkFive (Except.ok ())
    [(entityZero, okScanOutcome)] entityB bindFailOutcome []
    (Err.bindErr "boom") (by decide) (by decide)
  exact h

/-- C3 supporting lemma: registering callbacks one by one appends them in
order to the registration list. -/
theorem registerAll_oncommit {κ : Type} (fns : List κ) : ∀ t : Tx κ,
    (registerAll t fns).oncommit = t.oncommit ++ fns := by
  induction fns with
  | nil => intro t; simp [registerAll]
  | cons f rest ih =>
    intro t
    have h : registerAll t (f :: rest) = registerAll (Tx.PostCommit t f) rest := rfl
    rw [h, ih (Tx.PostCommit t f)]
    simp [Tx.PostCommit]

/-- C3: after a successful underlying commit, Commit invokes exactly the
registered callbacks in registration order; a failed commit returns the
commit error and invokes none; Rollback invokes none. -/
theorem commit_invokes_callbacks_in_order {κ : Type} (t : Tx κ)
    (fns : List κ) (e : Err) (u : Except Err Unit) :
    Tx.Commit (registerAll t fns) (Except.ok ()) =
      (Except.ok (), t.oncommit ++ fns) ∧
    Tx.Commit t (Except.error e) = (Except.error e, []) ∧
    Tx.Rollback t u = (u, []) := by
  refine ⟨?_, rfl, rfl⟩
  show (Except.ok (), (registerAll t fns).oncommit) =
    (Except.ok (), t.oncommit ++ fns)
  rw [registerAll_oncommit]

/-- C4: InsertBatch advances the clock exactly once, before the loop, and
on a run whose inserts all succeed every entity of the batch carries that
single instant as both its created and its updated timestamp. -/
theorem insertBatch_single_clock_stamp (clk : ClockState)
    (beginRes commitRes : Except Err Unit)
    (batch : List (Entity × InsertOutcome))
    (hok : ∀ p ∈ batch, (insertStep (clk.stream clk.reads) p.1 p.2).2 = none) :
    ((InsertBatch clk beginRes commitRes batch).2).reads = clk.reads + 1 ∧
    (beginRes = Except.ok () →
      ∀ ent ∈ ((InsertBatch clk beginRes commitRes batch).1).entities,
        ent.createdAt = clk.stream clk.reads ∧
        ent.updatedAt = clk.stream clk.reads) := by
  have hloop := insertBatchLoop_all_ok (clk.stream clk.reads) batch hok
  constructor
  · cases beginRes with
    | error e => rfl
    | ok u =>
      cases commitRes with
      | error e => simp [InsertBatch, ClockState.now, hloop]
      | ok v => simp [InsertBatch, ClockState.now, hloop]
  · intro hb
    subst hb
    have hents : ((InsertBatch clk (Except.ok ()) commitRes batch).1).entities =
        batch.map (fun p => (insertStep (clk.stream clk.reads) p.1 p.2).1) := by
      cases commitRes <;> simp [InsertBatch, ClockState.now, hloop]
    rw [hents]
    intro ent hent
    rcases List.mem_map.mp hent with ⟨p, hp, hpe⟩
    rw [← hpe]
    exact insertStep_stamps (clk.stream clk.reads) p.1 p.2

/-- Witness for insertBatch_single_clock_stamp: a successful two-entity
batch under a frozen clock at 9 reads the clock once and stamps both
entities with 9. -/
theorem insertBatch_single_clock_stamp_witness :
    ((InsertBatch clkNine (Except.ok ()) (Except.ok ())
        [(entityZero, okScanOutcome), (entityB, okScanOutcome)]).2).reads = 1 ∧
    ∀ ent ∈ ((InsertBatch clkNine (Except.ok ()) (Except.ok ())
        [(entityZero, okScanOutcome), (entityB, okScanOutcome)]).1).entities,
      ent.createdAt = 9 ∧ ent.updatedAt = 9 := by
  have h := insertBatch_single_clock_stamp clkNine (Except.ok ())
    (Except.ok ()) [(entityZero, okScanOutcome), (entityB, okScanOutcome)]
    (by decide)
  exact ⟨h.1, h.2 rfl⟩

/-- C5 counterexample: on a bind failure, Insert returns the error but
the entity's created timestamp has already been mutated from 0 to the
clock instant 5, so a partial mutation is visible to the caller on
failure. -/
theorem insert_bind_failure_mutation_counterexample :
    (Insert clkFive entityZero bindFailOutcome).1.2 =
      Except.error (Err.bindErr "boom") ∧
    (Insert clkFive entityZero bindFailOutcome).1.1.createdAt = 5 ∧
    entityZero.createdAt = 0 ∧
    (Insert clkFive entityZero bindFailOutcome).1.1 ≠ entityZero := by
  refine ⟨rfl, rfl, rfl, by decide⟩

/-- C5 (amended): every failing stage of Insert short-circuits, returns
the backend error unmodified and leaves the entity's id unchanged, but
the created and updated timestamps have already been stamped with the
clock instant before binding and remain mutated on failure. -/
theorem insert_failure_short_circuits (clk : ClockState) (e : Entity)
    (o : InsertOutcome) (err : Err) :
    ((stampTimes (clk.stream clk.reads) e).id = e.id) ∧
    (o.bind = Except.error err →
      (Insert clk e o).1 =
        (stampTimes (clk.stream clk.reads) e, Except.error err)) ∧
    (e.execInsert = false → o.bind = Except.ok () →
      o.scan = Except.error err →
      (Insert clk e o).1 =
        (stampTimes (clk.stream clk.reads) e, Except.error err)) ∧
    (e.execInsert = true → o.bind = Except.ok () →
      o.exec = Except.error err →
      (Insert clk e o).1 =
        (stampTimes (clk.stream clk.reads) e, Except.error err)) ∧
    (∀ r, e.execInsert = true → o.bind = Except.ok () →
      o.exec = Except.ok r → RowsAffected r 1 = some err →
      (Insert clk e o).1 =
        (stampTimes (clk.stream clk.reads) e, Except.error err)) := by
  refine ⟨rfl, ?_, ?_, ?_, ?_⟩
  · intro hb
    simp [Insert, insertStep, ClockState.now, hb]
  · intro hx hb hs
    simp [Insert, insertStep, ClockState.now, hb, hs, stampTimes, hx]
  · intro hx hb hc
    simp [Insert, insertStep, ClockState.now, hb, hc, stampTimes, hx]
  · intro r hx hb hc hr
    simp [Insert, insertStep, ClockState.now, hb, hc, hr, stampTimes, hx]

/-- Witness for insert_failure_short_circuits: the bind-failure case at a
frozen clock at 5. -/
theorem insert_failure_short_circuits_witness :
    (Insert clkFive entityZero bindFailOutcome).1 =
      (stampTimes 5 entityZero, Except.error (Err.bindErr "boom")) := by
  have h := insert_failure_short_circuits clkFive entityZero bindFailOutcome
    (Err.bindErr "boom")
  exact h.2.1 rfl

/-- C6: Delete passes the single clock instant and the entity's id to the
soft-delete statement, succeeds exactly when the statement affected
exactly one row, on success stores that same instant as the in-memory
deleted timestamp, and on any failure (not-found included) leaves the
entity unchanged. -/
theorem delete_requires_one_row (clk : ClockState) (e : Entity)
    (execRes : Except Err SqlResult) :
    ((Delete clk e execRes).1.passedTime = clk.stream clk.reads) ∧
    ((Delete clk e execRes).1.passedID = e.GetID) ∧
    ((Delete clk e execRes).1.result = Except.ok () ↔
      ∃ r, execRes = Except.ok r ∧ r.rowsAffected = Except.ok 1) ∧
    ((Delete clk e execRes).1.result = Except.ok () →
      (Delete clk e execRes).1.entity =
        e.SetDeletedAt ((Delete clk e execRes).1.passedTime)) ∧
    (∀ err, (Delete clk e execRes).1.result = Except.error err →
      (Delete clk e execRes).1.entity = e) := by
  cases execRes with
  | error err =>
    refine ⟨rfl, rfl, ?_, ?_, fun e2 h => rfl⟩
    · simp [Delete, ClockState.now]
    · intro h
      simp [Delete, ClockState.now] at h
  | ok r =>
    cases hr : RowsAffected r 1 with
    | none =>
      have h1 : r.rowsAffected = Except.ok 1 := (rowsAffected_none_iff r 1).mp hr
      have hd : (Delete clk e (Except.ok r)).1 =
          { entity := e.SetDeletedAt (clk.stream clk.reads),
            result := Except.ok (), passedTime := clk.stream clk.reads,
            passedID := e.GetID } := by
        simp [Delete, ClockState.now, hr]
      rw [hd]
      refine ⟨rfl, rfl, ?_, fun _ => rfl, ?_⟩
      · constructor
        · intro _
          exact ⟨r, rfl, h1⟩
        · intro _
          rfl
      · intro err2 h
        simp at h
    | some err =>
      have hd : (Delete clk e (Except.ok r)).1 =
          { entity := e, result := Except.error err,
            passedTime := clk.stream clk.reads, passedID := e.GetID } := by
        simp [Delete, ClockState.now, hr]
      rw [hd]
      refine ⟨rfl, rfl, ?_, ?_, fun err2 h => rfl⟩
      · constructor
        · intro h
          simp at h
        · intro hex
          obtain ⟨r2, hr2, h12⟩ := hex
          injection hr2 with hrr
          subst hrr
          rw [(rowsAffected_none_iff r 1).mpr h12] at hr
          cases hr
      · intro h
        simp at h

/-- Witness for delete_requires_one_row: a delete affecting exactly one
row under a frozen clock at 7 sets the in-memory deleted timestamp to
7. -/
theorem delete_requires_one_row_witness :
    (Delete clkSeven entityZero
        (Except.ok { rowsAffected := Except.ok 1 })).1.entity =
      entityZero.SetDeletedAt 7 := by
  have h := delete_requires_one_row clkSeven entityZero
    (Except.ok { rowsAffected := Except.ok 1 })
  exact h.2.2.2.1 rfl

/-- C7 counterexample: with the rebind-model flag set, the Update path
still executes the named-bound update template without the rebind
translation, so the rebind is not applied to all four model templates. -/
theorem update_not_rebound_counterexample :
    cfgRebindOn.doRebindModel = true ∧
    updateExecQuery cfgRebindOn entityZero = "u" ∧
    cfgRebindOn.rebind entityZero.updateQ = "u$" ∧
    updateExecQuery cfgRebindOn entityZero ≠
      cfgRebindOn.rebind entityZero.updateQ := by
  refine ⟨rfl, rfl, rfl, by decide⟩

/-- C7 (amended): when the rebind-model flag is set the rebind
translation is applied to the three canned model templates executed
verbatim (select, soft-delete and hard-delete); when it is not set those
templates run unchanged; the insert and update templates go through
named-parameter binding and are never rebound, independently of the
flag; the WithRebindModel option is what sets the flag. -/
theorem rebind_model_gating (d : DBConfig) (e : Entity) (b : Bool) :
    (d.doRebindModel = true →
      selectExecQuery d e = d.rebind e.selectQ ∧
      deleteExecQuery d e = d.rebind e.deleteQ ∧
      hardDeleteExecQuery d e = d.rebind e.hardDeleteQ) ∧
    (d.doRebindModel = false →
      selectExecQuery d e = e.selectQ ∧
      deleteExecQuery d e = e.deleteQ ∧
      hardDeleteExecQuery d e = e.hardDeleteQ) ∧
    updateExecQuery { d with doRebindModel := b } e = d.bindNamed e.updateQ ∧
    insertExecQuery { d with doRebindModel := b } e = d.bindNamed e.insertQ ∧
    (∀ o : Options, (WithRebindModel o).RebindModel = true) := by
  refine ⟨?_, ?_, rfl, rfl, fun o => rfl⟩
  · intro h
    refine ⟨?_, ?_, ?_⟩ <;>
      simp [selectExecQuery, deleteExecQuery, hardDeleteExecQuery,
        rebindModel, h]
  · intro h
    refine ⟨?_, ?_, ?_⟩ <;>
      simp [selectExecQuery, deleteExecQuery, hardDeleteExecQuery,
        rebindModel, h]

/-- Witness for rebind_model_gating: with the flag set, the select
template of the fixture entity is executed through the rebind
translation. -/
theorem rebind_model_gating_witness :
    selectExecQuery cfgRebindOn entityZero = "s$" := by
  have h := rebind_model_gating cfgRebindOn entityZero true
  exact (h.1 rfl).1

/-- C8: ArrayScan maps an absent (SQL NULL) source to the nil (none)
destination rather than an empty sequence, decodes a byte-slice source
through the element decoder registered for the type identifier (success
wrapping the decoded elements, failure propagated), treats a string
source exactly as its byte representation, and rejects every other
runtime source with the unsupported-type error. -/
theorem arrayScan_source_cases {T : Type}
    (scanMap : Nat → List Nat → Except Err (List T)) (oid : Nat) :
    ArrayScan scanMap oid ScanSrc.null = Except.ok none ∧
    (∀ b, ArrayScan scanMap oid (ScanSrc.bytes b) =
      Except.map some (scanMap oid b)) ∧
    (∀ s, ArrayScan scanMap oid (ScanSrc.str s) =
      ArrayScan scanMap oid (ScanSrc.bytes (strBytes s))) ∧
    (∀ d, ArrayScan scanMap oid (ScanSrc.other d) =
      Except.error (Err.unsupportedType d)) := by
  refine ⟨rfl, ?_, fun s => rfl, fun d => rfl⟩
  intro b
  have h0 : ArrayScan scanMap oid (ScanSrc.bytes b) =
      scanArrayBytes scanMap oid b := rfl
  rw [h0]
  unfold scanArrayBytes
  cases h : scanMap oid b <;> simp [h, Except.map]

end Sequel
